import Mathlib

/-!
Shallow embedding of the deterministic decision layer of the AtlasV2
conversation engine (`src/src/ambiguity-detector.ts`, `src/src/intent-analyzer.ts`,
the flow entry points, and the zod schemas in `src/schemas.ts`).

Numeric values that the TypeScript source stores in `number` fields
(confidence scores, priorities, ambiguity scores) are modelled as exact
rationals `ℚ`; every property proved here is an exact arithmetic identity
or comparison that does not depend on floating-point rounding.
External LLM calls are opaque: their (schema-validated) outputs are
explicit parameters of the embedded functions, so each definition captures
exactly the deterministic computation the source performs around them.
-/

namespace Atlas

/-- Closed enum `z.enum(['high','medium','low'])` for `impact` (schemas and
ambiguity-detector prompt output schema). -/
inductive Impact where
  | high
  | medium
  | low
deriving DecidableEq, Repr

/-- Closed enum `z.enum(['critical','important','helpful'])` for
`resolutionUrgency` in the ambiguity-analysis prompt output schema. -/
inductive ResolutionUrgency where
  | critical
  | important
  | helpful
deriving DecidableEq, Repr

/-- `AmbiguityTypeSchema` from `src/schemas.ts`. -/
inductive AmbiguityType where
  | product_category
  | quantity_scope
  | budget_interpretation
  | timeline_urgency
  | quality_expectation
  | customization_extent
  | recipient_specification
  | none
deriving DecidableEq, Repr

/-- One entry of the `ambiguities` array in the ambiguity-analysis prompt's
output schema (`ambiguityDetectionFlow`, `src/src/ambiguity-detector.ts`):
type, description, interpretations, confidence, impact, evidence, urgency. -/
structure DetectedAmbiguity where
  type : AmbiguityType
  description : String
  possibleInterpretations : List String
  confidence : ℚ
  impact : Impact
  evidenceFromQuery : List String
  resolutionUrgency : ResolutionUrgency
deriving DecidableEq, Repr

/-- The impact weight table `{ high: 3, medium: 2, low: 1 }` used by
`calculatePriority` and `calculateOverallAmbiguityScore`. -/
def impactWeight : Impact → ℚ
  | .high => 3
  | .medium => 2
  | .low => 1

/-- The urgency weight table `{ critical: 3, important: 2, helpful: 1 }`
used by `calculatePriority`. -/
def urgencyWeight : ResolutionUrgency → ℚ
  | .critical => 3
  | .important => 2
  | .helpful => 1

/-- `calculatePriority` (`src/src/ambiguity-detector.ts` lines 274-280):
`(impactWeight * urgencyWeight * confidenceWeight) * 10`. -/
def calculatePriority (ambiguity : DetectedAmbiguity) : ℚ :=
  impactWeight ambiguity.impact * urgencyWeight ambiguity.resolutionUrgency
    * ambiguity.confidence * 10

/-- `calculateOverallAmbiguityScore` (`src/src/ambiguity-detector.ts`
lines 282-292): `0` for the empty list, otherwise
`reduce (sum, amb) => sum + weight(impact) * confidence` over the list,
divided by `ambiguities.length * 3`. -/
def calculateOverallAmbiguityScore (ambiguities : List DetectedAmbiguity) : ℚ :=
  if ambiguities.length = 0 then 0
  else
    let totalImpact :=
      ambiguities.foldl (fun sum amb => sum + impactWeight amb.impact * amb.confidence) 0
    let maxPossibleImpact : ℚ := (ambiguities.length : ℚ) * 3
    totalImpact / maxPossibleImpact

/-- String rendering of an impact value, as interpolated into the
`reasoning` template string of `ambiguityDetectionFlow`. -/
def impactStr : Impact → String
  | .high => "high"
  | .medium => "medium"
  | .low => "low"

/-- String rendering of a resolution urgency, as interpolated into the
`reasoning` template string of `ambiguityDetectionFlow`. -/
def urgencyStr : ResolutionUrgency → String
  | .critical => "critical"
  | .important => "important"
  | .helpful => "helpful"

/-- One entry of `clarificationPriority` in the output schema of
`ambiguityDetectionFlow`: `{ ambiguityType, priority, reasoning }`. -/
structure PriorityEntry where
  ambiguityType : AmbiguityType
  priority : ℚ
  reasoning : String
deriving DecidableEq, Repr

/-- The `.map` step of the `clarificationPriority` computation
(`src/src/ambiguity-detector.ts` lines 176-181): attach the computed
priority and the templated reasoning string to the ambiguity type. -/
def priorityEntry (amb : DetectedAmbiguity) : PriorityEntry :=
  { ambiguityType := amb.type
    priority := calculatePriority amb
    reasoning :=
      impactStr amb.impact ++ " impact ambiguity with " ++ toString amb.confidence
        ++ " confidence. " ++ urgencyStr amb.resolutionUrgency ++ " to resolve." }

/-- The full `clarificationPriority` computation
(`src/src/ambiguity-detector.ts` lines 176-182): map each detected
ambiguity to its priority entry, then
`.sort((a, b) => b.priority - a.priority)`.  ECMAScript `Array.prototype.sort`
is stable, and this comparator puts `a` before `b` exactly when
`b.priority ≤ a.priority` holds at ties or strictly; that stable descending
sort is modelled by `List.mergeSort` with the relation
`fun a b => b.priority ≤ a.priority`, which Lean's `mergeSort` sorts stably. -/
def clarificationPriorityList (ambiguities : List DetectedAmbiguity) : List PriorityEntry :=
  (ambiguities.map priorityEntry).mergeSort (fun a b => decide (b.priority ≤ a.priority))

/-- One entry of the `detectedAmbiguities` array in the output schema of
`ambiguityDetectionFlow`: the analysed ambiguity with `resolutionUrgency`
projected away (lines 188-195). -/
structure DetectedAmbiguityOut where
  type : AmbiguityType
  description : String
  possibleInterpretations : List String
  confidence : ℚ
  impact : Impact
  evidenceFromQuery : List String
deriving DecidableEq, Repr

/-- The projection applied to each analysed ambiguity when assembling the
`detectedAmbiguities` output of `ambiguityDetectionFlow` (lines 188-195). -/
def dropUrgency (amb : DetectedAmbiguity) : DetectedAmbiguityOut :=
  { type := amb.type
    description := amb.description
    possibleInterpretations := amb.possibleInterpretations
    confidence := amb.confidence
    impact := amb.impact
    evidenceFromQuery := amb.evidenceFromQuery }

/-- Output record of `ambiguityDetectionFlow`. -/
structure AmbiguityDetectionResult where
  detectedAmbiguities : List DetectedAmbiguityOut
  clarificationPriority : List PriorityEntry
  overallAmbiguityScore : ℚ
deriving DecidableEq, Repr

/-- The deterministic tail of `ambiguityDetectionFlow`
(`src/src/ambiguity-detector.ts` lines 176-198), applied to the
schema-validated `analysis.ambiguities` array produced by the LLM prompt. -/
def ambiguityDetection (ambiguities : List DetectedAmbiguity) : AmbiguityDetectionResult :=
  { detectedAmbiguities := ambiguities.map dropUrgency
    clarificationPriority := clarificationPriorityList ambiguities
    overallAmbiguityScore := calculateOverallAmbiguityScore ambiguities }

/-- `IntentTypeSchema` from `src/schemas.ts`. -/
inductive IntentType where
  | product_search
  | specification_inquiry
  | budget_discussion
  | timeline_planning
  | comparison_request
  | customization_details
  | order_process
  | general_question
deriving DecidableEq, Repr

/-- `IndustryContextSchema` from `src/schemas.ts`. -/
inductive IndustryContext where
  | technology
  | healthcare
  | finance
  | education
  | non_profit
  | retail
  | manufacturing
  | hospitality
  | legal
  | creative_agency
  | construction
  | automotive
  | real_estate
  | unknown
deriving DecidableEq, Repr

/-- `EventTypeSchema` from `src/schemas.ts`. -/
inductive EventType where
  | trade_show
  | conference
  | employee_onboarding
  | client_appreciation
  | product_launch
  | company_anniversary
  | holiday_gifts
  | fundraising
  | recruitment
  | brand_awareness
  | unknown
deriving DecidableEq, Repr

/-- `RecipientTypeSchema` from `src/schemas.ts`. -/
inductive RecipientType where
  | employees
  | clients
  | prospects
  | event_attendees
  | general_public
  | partners
  | vendors
  | unknown
deriving DecidableEq, Repr

/-- The `budget` sub-object of `ProductDiscoverySchema`. -/
structure Budget where
  amount : Option ℚ
  perItem : Bool
  currency : String
  isApproximate : Bool
deriving DecidableEq, Repr

/-- The `urgency` enum of the `timeline` sub-object of `ProductDiscoverySchema`. -/
inductive TimelineUrgency where
  | rush
  | standard
  | flexible
deriving DecidableEq, Repr

/-- The `timeline` sub-object of `ProductDiscoverySchema`. -/
structure Timeline where
  deadline : Option String
  urgency : TimelineUrgency
  isFlexible : Bool
deriving DecidableEq, Repr

/-- One entry of the `ambiguities` array of `ProductDiscoverySchema`
(type, description, possibleInterpretations). -/
structure UnderstandingAmbiguity where
  type : AmbiguityType
  description : String
  possibleInterpretations : List String
deriving DecidableEq, Repr

/-- The `confidence` sub-object of `ProductDiscoverySchema`: each field a
number in [0,1] per the zod `.min(0).max(1)` bounds. -/
structure Confidence where
  overall : ℚ
  intent : ℚ
  context : ℚ
  specifications : ℚ
deriving DecidableEq, Repr

/-- `ProductDiscoverySchema` from `src/schemas.ts` (an "understanding").
`attributes` is `z.record(z.string())`, modelled as an association list. -/
structure ProductDiscovery where
  primaryIntent : IntentType
  productType : Option String
  productCategories : List String
  industryContext : IndustryContext
  eventType : EventType
  recipientType : RecipientType
  attributes : List (String × String)
  quantity : Option ℚ
  budget : Option Budget
  timeline : Option Timeline
  ambiguities : List UnderstandingAmbiguity
  confidence : Confidence
deriving DecidableEq, Repr

/-- `ClarificationQuestionSchema` question `type` enum. -/
inductive QuestionType where
  | open_ended
  | multiple_choice
  | yes_no
  | range
deriving DecidableEq, Repr

/-- `ClarificationQuestionSchema` `priority` enum. -/
inductive PriorityLabel where
  | high
  | medium
  | low
deriving DecidableEq, Repr

/-- `ClarificationQuestionSchema` from `src/schemas.ts`. -/
structure ClarificationQuestion where
  question : String
  type : QuestionType
  options : Option (List String)
  priority : PriorityLabel
  reasoning : String
deriving DecidableEq, Repr

/-- One entry of `clarificationHistory` in `ConversationContextSchema`:
`{ question, answer, resolvedAmbiguity? }`. -/
structure QAPair where
  question : String
  answer : String
  resolvedAmbiguity : Option AmbiguityType
deriving DecidableEq, Repr

/-- `conversationState` enum of `ConversationContextSchema`. -/
inductive ConversationState where
  | discovery
  | clarification
  | confirmation
  | specification
deriving DecidableEq, Repr

/-- `ConversationContextSchema` from `src/schemas.ts`.  `userPreferences`
is `z.record(z.any())`, modelled as an opaque association list; the core
only passes it through. -/
structure ConversationContext where
  conversationId : String
  turnNumber : Nat
  previousContext : Option ProductDiscovery
  currentUnderstanding : ProductDiscovery
  clarificationHistory : List QAPair
  userPreferences : List (String × String)
  conversationState : ConversationState
deriving DecidableEq, Repr

/-- JavaScript `x || d` on an optionally-present string: an absent or empty
(falsy) string falls back to the default. -/
def jsOrString (x : Option String) (d : String) : String :=
  match x with
  | some s => if s = "" then d else s
  | Option.none => d

/-- JavaScript `x || d` on an optionally-present number (here a natural):
an absent or zero (falsy) value falls back to the default. -/
def jsOrNat (x : Option Nat) (d : Nat) : Nat :=
  match x with
  | some n => if n = 0 then d else n
  | Option.none => d

/-- The fresh conversation id `` `conv_${Date.now()}` `` minted by
`intentAnalysisFlow` when no previous context is supplied; the clock
reading is an explicit parameter. -/
def freshConversationId (now : Nat) : String :=
  "conv_" ++ toString now

/-- Output record of `intentAnalysisFlow` (`src/src/intent-analyzer.ts`).
`contextAnalysis` and `businessInsights` are opaque LLM outputs returned
unchanged and are omitted from the embedding. -/
structure IntentAnalysisResult where
  understanding : ProductDiscovery
  ambiguityAnalysis : AmbiguityDetectionResult
  needsClarification : Bool
  clarificationQuestions : List ClarificationQuestion
  updatedContext : ConversationContext
deriving DecidableEq, Repr

/-- The deterministic decision layer of `intentAnalysisFlow`
(`src/src/intent-analyzer.ts` lines 104-194), parameterised over the
schema-validated LLM outputs it consumes: the enhanced understanding
(step 4), the ambiguity-analysis prompt's `ambiguities` array (step 3,
from which step 3 computes priorities and the overall score), and the
question list `clarificationGenerationFlow` would return (step 7).
Steps 6-8 are the source's own computations:
`needsClarification = overallAmbiguityScore > 0.3 || confidence.overall < 0.7`,
questions only when clarification is needed, and the updated context. -/
def intentAnalysis (now : Nat) (conversationContext : Option ConversationContext)
    (enhancedUnderstanding : ProductDiscovery)
    (analysisAmbiguities : List DetectedAmbiguity)
    (generatedQuestions : List ClarificationQuestion) : IntentAnalysisResult :=
  let ambiguityAnalysis := ambiguityDetection analysisAmbiguities
  let needsClarification : Bool :=
    decide (ambiguityAnalysis.overallAmbiguityScore > (0.3 : ℚ)) ||
      decide (enhancedUnderstanding.confidence.overall < (0.7 : ℚ))
  let clarificationQuestions : List ClarificationQuestion :=
    if needsClarification then generatedQuestions else []
  let updatedContext : ConversationContext :=
    { conversationId :=
        jsOrString (conversationContext.map (fun c => c.conversationId))
          (freshConversationId now)
      turnNumber :=
        jsOrNat (conversationContext.map (fun c => c.turnNumber)) 0 + 1
      previousContext := conversationContext.map (fun c => c.currentUnderstanding)
      currentUnderstanding := enhancedUnderstanding
      clarificationHistory :=
        match conversationContext with
        | some c => c.clarificationHistory
        | Option.none => []
      userPreferences :=
        match conversationContext with
        | some c => c.userPreferences
        | Option.none => []
      conversationState :=
        if needsClarification then ConversationState.clarification
        else ConversationState.confirmation }
  { understanding := enhancedUnderstanding
    ambiguityAnalysis := ambiguityAnalysis
    needsClarification := needsClarification
    clarificationQuestions := clarificationQuestions
    updatedContext := updatedContext }

/-- Output record of `clarificationProcessingFlow` (`src/src/intent-analyzer.ts`). -/
structure ClarificationProcessingResult where
  updatedUnderstanding : ProductDiscovery
  needsMoreClarification : Bool
  nextQuestions : List ClarificationQuestion
  updatedContext : ConversationContext
deriving DecidableEq, Repr

/-- The deterministic decision layer of `clarificationProcessingFlow`
(`src/src/intent-analyzer.ts` lines 214-294), parameterised over the
schema-validated updated understanding returned by the integration prompt.
`needsMoreClarification = ambiguities.length > 0 || confidence.overall < 0.8`;
`nextQuestions` stays the empty array (the `if` body at lines 266-269 is a
stubbed comment); the updated context appends the processed question/answer
pair (with `resolvedAmbiguity: undefined`) and bumps the turn number. -/
def clarificationProcessing (clarificationAnswer questionAsked : String)
    (conversationContext : ConversationContext)
    (updatedUnderstanding : ProductDiscovery) : ClarificationProcessingResult :=
  let needsMoreClarification : Bool :=
    decide (updatedUnderstanding.ambiguities.length > 0) ||
      decide (updatedUnderstanding.confidence.overall < (0.8 : ℚ))
  let nextQuestions : List ClarificationQuestion := []
  let updatedContext : ConversationContext :=
    { conversationContext with
      turnNumber := conversationContext.turnNumber + 1
      previousContext := some conversationContext.currentUnderstanding
      currentUnderstanding := updatedUnderstanding
      clarificationHistory :=
        conversationContext.clarificationHistory ++
          [{ question := questionAsked
             answer := clarificationAnswer
             resolvedAmbiguity := Option.none }]
      conversationState :=
        if needsMoreClarification then ConversationState.clarification
        else ConversationState.confirmation }
  { updatedUnderstanding := updatedUnderstanding
    needsMoreClarification := needsMoreClarification
    nextQuestions := nextQuestions
    updatedContext := updatedContext }

/-- Output record of `conversationFlow` (the per-turn entry point in the
orchestrator source file); `contextAnalysis`, `businessInsights` and
`ambiguityAnalysis` are passed through and shown here only as the
embedded ambiguity result. -/
structure ConversationFlowResult where
  response : String
  understanding : ProductDiscovery
  ambiguityAnalysis : AmbiguityDetectionResult
  needsClarification : Bool
  clarificationQuestions : List ClarificationQuestion
  conversationContext : ConversationContext
  confidenceOverall : ℚ
  readyToRecommend : Bool
deriving DecidableEq, Repr

/-- The deterministic assembly of `conversationFlow` (orchestrator lines
96-171): run the intent analysis, then return its fields plus
`confidence.readyToRecommend =
 understanding.confidence.overall > 0.8 && understanding.ambiguities.length === 0`.
The natural-language `response` text is an opaque LLM output parameter. -/
def conversationTurn (now : Nat) (responseText : String)
    (conversationContext : Option ConversationContext)
    (enhancedUnderstanding : ProductDiscovery)
    (analysisAmbiguities : List DetectedAmbiguity)
    (generatedQuestions : List ClarificationQuestion) : ConversationFlowResult :=
  let analysisResult :=
    intentAnalysis now conversationContext enhancedUnderstanding
      analysisAmbiguities generatedQuestions
  { response := responseText
    understanding := analysisResult.understanding
    ambiguityAnalysis := analysisResult.ambiguityAnalysis
    needsClarification := analysisResult.needsClarification
    clarificationQuestions := analysisResult.clarificationQuestions
    conversationContext := analysisResult.updatedContext
    confidenceOverall := analysisResult.understanding.confidence.overall
    readyToRecommend :=
      decide (analysisResult.understanding.confidence.overall > (0.8 : ℚ)) &&
        (analysisResult.understanding.ambiguities.length == 0) }

/-- Output record of `requirementsGatheringFlow` (the clarification-answer
entry point in the orchestrator source file). -/
structure RequirementsGatheringResult where
  response : String
  updatedUnderstanding : ProductDiscovery
  needsMoreClarification : Bool
  nextQuestions : List ClarificationQuestion
  conversationContext : ConversationContext
  readyForRecommendations : Bool
deriving DecidableEq, Repr

/-- The deterministic assembly of `requirementsGatheringFlow` (orchestrator
lines 198-259): run `clarificationProcessing`, then return its fields plus
`readyForRecommendations =
 !needsMoreClarification && updatedUnderstanding.confidence.overall > 0.8`. -/
def requirementsGathering (clarificationAnswer questionAsked responseText : String)
    (conversationContext : ConversationContext)
    (updatedUnderstanding : ProductDiscovery) : RequirementsGatheringResult :=
  let clarificationResult :=
    clarificationProcessing clarificationAnswer questionAsked conversationContext
      updatedUnderstanding
  { response := responseText
    updatedUnderstanding := clarificationResult.updatedUnderstanding
    needsMoreClarification := clarificationResult.needsMoreClarification
    nextQuestions := clarificationResult.nextQuestions
    conversationContext := clarificationResult.updatedContext
    readyForRecommendations :=
      !clarificationResult.needsMoreClarification &&
        decide (clarificationResult.updatedUnderstanding.confidence.overall > (0.8 : ℚ)) }

/-- Raw (unvalidated) shape of one ambiguity as the external model emits
it: the enum-typed fields are plain strings before zod validation. -/
structure RawAmbiguity where
  type : String
  description : String
  possibleInterpretations : List String
  confidence : ℚ
  impact : String
  evidenceFromQuery : List String
  resolutionUrgency : String
deriving DecidableEq, Repr

/-- zod parse of `AmbiguityTypeSchema`: accepts exactly the eight declared
literals, rejects everything else. -/
def parseAmbiguityType (s : String) : Option AmbiguityType :=
  if s = "product_category" then some AmbiguityType.product_category
  else if s = "quantity_scope" then some AmbiguityType.quantity_scope
  else if s = "budget_interpretation" then some AmbiguityType.budget_interpretation
  else if s = "timeline_urgency" then some AmbiguityType.timeline_urgency
  else if s = "quality_expectation" then some AmbiguityType.quality_expectation
  else if s = "customization_extent" then some AmbiguityType.customization_extent
  else if s = "recipient_specification" then some AmbiguityType.recipient_specification
  else if s = "none" then some AmbiguityType.none
  else Option.none

/-- zod parse of `z.enum(['high','medium','low'])` for `impact`. -/
def parseImpact (s : String) : Option Impact :=
  if s = "high" then some Impact.high
  else if s = "medium" then some Impact.medium
  else if s = "low" then some Impact.low
  else Option.none

/-- zod parse of `z.enum(['critical','important','helpful'])` for
`resolutionUrgency`. -/
def parseUrgency (s : String) : Option ResolutionUrgency :=
  if s = "critical" then some ResolutionUrgency.critical
  else if s = "important" then some ResolutionUrgency.important
  else if s = "helpful" then some ResolutionUrgency.helpful
  else Option.none

/-- Validation of a single raw ambiguity against the ambiguity-analysis
prompt's declared output schema: all three enum fields must parse. -/
def parseDetectedAmbiguity (r : RawAmbiguity) : Option DetectedAmbiguity :=
  match parseAmbiguityType r.type, parseImpact r.impact, parseUrgency r.resolutionUrgency with
  | some t, some i, some u =>
      some { type := t
             description := r.description
             possibleInterpretations := r.possibleInterpretations
             confidence := r.confidence
             impact := i
             evidenceFromQuery := r.evidenceFromQuery
             resolutionUrgency := u }
  | _, _, _ => Option.none

/-- Validation of the whole `ambiguities` array: `z.array(...)` succeeds
only when every element does. -/
def parseAmbiguityList : List RawAmbiguity → Option (List DetectedAmbiguity)
  | [] => some []
  | r :: rs =>
    match parseDetectedAmbiguity r, parseAmbiguityList rs with
    | some a, some rest => some (a :: rest)
    | _, _ => Option.none

/-- `ambiguityDetectionFlow` including the framework-enforced validation of
the model's output against the declared zod schema: an out-of-enum value
makes the prompt call raise a schema-validation error (`Option.none` here),
so the numeric scoring in `ambiguityDetection` runs only on validated data. -/
def ambiguityDetectionChecked (raw : List RawAmbiguity) : Option AmbiguityDetectionResult :=
  (parseAmbiguityList raw).map ambiguityDetection

/-- Raw (unvalidated) shape of one clarification question as the external
model emits it, before zod validation against `ClarificationQuestionSchema`. -/
structure RawClarificationQuestion where
  question : String
  type : String
  options : Option (List String)
  priority : String
  reasoning : String
deriving DecidableEq, Repr

/-- zod parse of the question `type` enum
`z.enum(['open_ended','multiple_choice','yes_no','range'])`. -/
def parseQuestionType (s : String) : Option QuestionType :=
  if s = "open_ended" then some QuestionType.open_ended
  else if s = "multiple_choice" then some QuestionType.multiple_choice
  else if s = "yes_no" then some QuestionType.yes_no
  else if s = "range" then some QuestionType.range
  else Option.none

/-- zod parse of the question `priority` enum `z.enum(['high','medium','low'])`. -/
def parsePriorityLabel (s : String) : Option PriorityLabel :=
  if s = "high" then some PriorityLabel.high
  else if s = "medium" then some PriorityLabel.medium
  else if s = "low" then some PriorityLabel.low
  else Option.none

/-- Validation of a single raw question against `ClarificationQuestionSchema`.
Note the schema places no lower bound on `reasoning` (any string, empty
included) and no length bound on the array. -/
def parseClarificationQuestion (r : RawClarificationQuestion) : Option ClarificationQuestion :=
  match parseQuestionType r.type, parsePriorityLabel r.priority with
  | some t, some p =>
      some { question := r.question
             type := t
             options := r.options
             priority := p
             reasoning := r.reasoning }
  | _, _ => Option.none

/-- Validation of the model's question array against
`z.array(ClarificationQuestionSchema)`: succeeds only when every element
does, preserving order. -/
def parseQuestionList : List RawClarificationQuestion → Option (List ClarificationQuestion)
  | [] => some []
  | r :: rs =>
    match parseClarificationQuestion r, parseQuestionList rs with
    | some q, some rest => some (q :: rest)
    | _, _ => Option.none

/-- `clarificationGenerationFlow` (`src/src/ambiguity-detector.ts` lines
203-271): the flow interpolates `maxQuestions` into the prompt text and
then returns `questionsResponse.output` — the model's schema-validated
question list — unchanged.  No truncation to `maxQuestions`, no reordering,
and no non-emptiness check on `reasoning` happens in code. -/
def clarificationGeneration (maxQuestions : Nat)
    (modelOutput : List RawClarificationQuestion) : Option (List ClarificationQuestion) :=
  parseQuestionList modelOutput

/-- A confidence record with all four fields equal, for concrete test inputs. -/
def mkConfidence (q : ℚ) : Confidence :=
  { overall := q, intent := q, context := q, specifications := q }

/-- A minimal concrete understanding with a given overall confidence and
ambiguity list, for concrete test inputs. -/
def mkUnderstanding (q : ℚ) (ambs : List UnderstandingAmbiguity) : ProductDiscovery :=
  { primaryIntent := IntentType.product_search
    productType := some "polo shirts"
    productCategories := ["apparel"]
    industryContext := IndustryContext.technology
    eventType := EventType.conference
    recipientType := RecipientType.employees
    attributes := [("color", "navy")]
    quantity := some 50
    budget := some { amount := some 20, perItem := true, currency := "USD", isApproximate := true }
    timeline := some { deadline := some "2025-06-01", urgency := TimelineUrgency.standard, isFlexible := true }
    ambiguities := ambs
    confidence := mkConfidence q }

/-- A concrete understanding-level ambiguity entry. -/
def sampleUAmbiguity : UnderstandingAmbiguity :=
  { type := AmbiguityType.budget_interpretation
    description := "per item or total"
    possibleInterpretations := ["per item", "total"] }

/-- A concrete detected ambiguity with the given impact, urgency and
confidence. -/
def mkDetected (i : Impact) (u : ResolutionUrgency) (c : ℚ) : DetectedAmbiguity :=
  { type := AmbiguityType.budget_interpretation
    description := "per item or total"
    possibleInterpretations := ["per item", "total"]
    confidence := c
    impact := i
    evidenceFromQuery := ["under $20"]
    resolutionUrgency := u }

/-- A concrete conversation context at a given turn, state and history. -/
def mkContext (turn : Nat) (history : List QAPair) (st : ConversationState) : ConversationContext :=
  { conversationId := "conv_1"
    turnNumber := turn
    previousContext := Option.none
    currentUnderstanding := mkUnderstanding (0.6 : ℚ) [sampleUAmbiguity]
    clarificationHistory := history
    userPreferences := []
    conversationState := st }

/-- A concrete question/answer pair. -/
def sampleQA : QAPair :=
  { question := "Is that $20 per gift or total?"
    answer := "$20 per gift"
    resolvedAmbiguity := Option.none }

/-- A detected ambiguity whose confidence is 0: it contributes
`3 * 0 = 0` to the overall-score numerator. -/
def zeroConfidenceAmbiguity : DetectedAmbiguity :=
  mkDetected Impact.high ResolutionUrgency.critical 0

/-- A schema-valid raw clarification question. -/
def mkRawQuestion (q : String) : RawClarificationQuestion :=
  { question := q
    type := "open_ended"
    options := Option.none
    priority := "high"
    reasoning := "budget ambiguity blocks pricing" }

/-- Four schema-valid raw questions: one more than the default budget of 3. -/
def fourRawQuestions : List RawClarificationQuestion :=
  [mkRawQuestion "q1", mkRawQuestion "q2", mkRawQuestion "q3", mkRawQuestion "q4"]

/-- A raw ambiguity with an impact value outside the closed enum. -/
def badImpactRaw : RawAmbiguity :=
  { type := "budget_interpretation"
    description := "per item or total"
    possibleInterpretations := ["per item", "total"]
    confidence := (0.9 : ℚ)
    impact := "severe"
    evidenceFromQuery := ["under $20"]
    resolutionUrgency := "critical" }

/-- A raw ambiguity with every enum field inside its closed enum. -/
def goodRaw : RawAmbiguity :=
  { type := "quantity_scope"
    description := "team size unknown"
    possibleInterpretations := ["10", "500"]
    confidence := (0.8 : ℚ)
    impact := "medium"
    evidenceFromQuery := ["for the team"]
    resolutionUrgency := "important" }

/-- The two detected ambiguities of the spec's first test scenario:
high/critical at confidence 0.9 and low/helpful at confidence 0.4. -/
def scenarioAmbiguities : List DetectedAmbiguity :=
  [mkDetected Impact.high ResolutionUrgency.critical (0.9 : ℚ),
   mkDetected Impact.low ResolutionUrgency.helpful (0.4 : ℚ)]

/-- A concrete context carrying one prior question/answer pair. -/
def oneEntryContext : ConversationContext :=
  mkContext 3 [sampleQA] ConversationState.clarification

/-- An understanding with no ambiguities and overall confidence 0.75,
inside [0.7, 0.8). -/
def midConfidenceUnderstanding : ProductDiscovery :=
  mkUnderstanding (0.75 : ℚ) []

/-- A high-impact, critical, fully-confident detected ambiguity: alone it
yields an overall ambiguity score of 1. -/
def certainHighAmbiguity : DetectedAmbiguity :=
  mkDetected Impact.high ResolutionUrgency.critical 1

/-- The parsed form of `mkRawQuestion q`. -/
def mkParsedQuestion (q : String) : ClarificationQuestion :=
  { question := q
    type := QuestionType.open_ended
    options := Option.none
    priority := PriorityLabel.high
    reasoning := "budget ambiguity blocks pricing" }

/-- The validated form of `fourRawQuestions`. -/
def fourParsedQuestions : List ClarificationQuestion :=
  [mkParsedQuestion "q1", mkParsedQuestion "q2", mkParsedQuestion "q3", mkParsedQuestion "q4"]

/-- A model output mixing one valid ambiguity with one whose impact is
outside the closed enum. -/
def mixedRawAmbiguities : List RawAmbiguity :=
  [goodRaw, badImpactRaw]

/-! ## Helper lemmas -/

theorem foldl_add_eq_sum (f : DetectedAmbiguity → ℚ) (l : List DetectedAmbiguity) (c : ℚ) :
    l.foldl (fun sum a => sum + f a) c = c + (l.map f).sum := by
  induction l generalizing c with
  | nil => simp
  | cons a l ih =>
    simp only [List.foldl_cons, List.map_cons, List.sum_cons, ih]
    ring

theorem calculateOverallAmbiguityScore_eq_sum (l : List DetectedAmbiguity) :
    calculateOverallAmbiguityScore l =
      (l.map fun a => impactWeight a.impact * a.confidence).sum / ((l.length : ℚ) * 3) := by
  unfold calculateOverallAmbiguityScore
  split
  · rename_i h
    have : l = [] := List.length_eq_zero.mp h
    subst this
    simp
  · simp only [foldl_add_eq_sum, zero_add]

theorem impactWeight_pos (i : Impact) : 0 < impactWeight i := by
  cases i <;> norm_num [impactWeight]

theorem impactWeight_le_three (i : Impact) : impactWeight i ≤ 3 := by
  cases i <;> norm_num [impactWeight]

theorem urgencyWeight_pos (u : ResolutionUrgency) : 0 < urgencyWeight u := by
  cases u <;> norm_num [urgencyWeight]

theorem urgencyWeight_le_three (u : ResolutionUrgency) : urgencyWeight u ≤ 3 := by
  cases u <;> norm_num [urgencyWeight]

theorem ratList_sum_eq_zero_iff (l : List ℚ) (h : ∀ x ∈ l, 0 ≤ x) :
    l.sum = 0 ↔ ∀ x ∈ l, x = 0 := by
  induction l with
  | nil => simp
  | cons a l ih =>
    have ha : 0 ≤ a := h a (by simp)
    have hl : ∀ x ∈ l, 0 ≤ x := fun x hx => h x (by simp [hx])
    have hsum : 0 ≤ l.sum := List.sum_nonneg hl
    constructor
    · intro h0
      have ha0 : a = 0 := by
        simp only [List.sum_cons] at h0
        linarith
      have hl0 : l.sum = 0 := by
        simp only [List.sum_cons] at h0
        linarith
      intro x hx
      rcases List.mem_cons.mp hx with rfl | hx'
      · exact ha0
      · exact (ih hl).mp hl0 x hx'
    · intro hall
      simp only [List.sum_cons]
      rw [hall a (by simp), (ih hl).mpr (fun x hx => hall x (by simp [hx]))]
      norm_num

/-! ## Claim theorems -/

/-- C3: in both public entry points, the readiness flag returned to the
caller is true iff the returned understanding's `confidence.overall`
exceeds 0.8 and its `ambiguities` list is empty — in both directions. -/
theorem readiness_flag_biconditional :
    (∀ (now : Nat) (rt : String) (ctx : Option ConversationContext)
       (u : ProductDiscovery) (ambs : List DetectedAmbiguity)
       (qs : List ClarificationQuestion),
       ((conversationTurn now rt ctx u ambs qs).readyToRecommend = true ↔
         ((0.8 : ℚ) < u.confidence.overall ∧ u.ambiguities = []))) ∧
    (∀ (a q rt : String) (ctx : ConversationContext) (u : ProductDiscovery),
       ((requirementsGathering a q rt ctx u).readyForRecommendations = true ↔
         ((0.8 : ℚ) < u.confidence.overall ∧ u.ambiguities = []))) := by
  constructor
  · intro now rt ctx u ambs qs
    simp only [conversationTurn, intentAnalysis, Bool.and_eq_true, decide_eq_true_eq,
      beq_iff_eq, List.length_eq_zero]
  · intro a q rt ctx u
    simp only [requirementsGathering, clarificationProcessing, Bool.and_eq_true,
      Bool.not_eq_true', Bool.or_eq_false_iff, decide_eq_true_eq, decide_eq_false_iff_not,
      not_lt, List.length_eq_zero]
    constructor
    · rintro ⟨⟨hlen, -⟩, hgt⟩
      exact ⟨hgt, by simpa using Nat.le_zero.mp hlen⟩
    · rintro ⟨hgt, hnil⟩
      refine ⟨⟨by simp [hnil], by linarith⟩, hgt⟩

/-- C4: neither step function ever returns the `specification` state: both
set the new context's state to `clarification` or `confirmation` only.  At
the claim's own trigger (a turn whose understanding has
`confidence.overall = 0.85` and no ambiguities, processed from the
`confirmation` state) the clarification path yields `confirmation`. -/
theorem specification_state_never_produced :
    (∀ (now : Nat) (ctx : Option ConversationContext) (u : ProductDiscovery)
       (ambs : List DetectedAmbiguity) (qs : List ClarificationQuestion),
       (intentAnalysis now ctx u ambs qs).updatedContext.conversationState ≠
         ConversationState.specification) ∧
    (∀ (a q : String) (ctx : ConversationContext) (u : ProductDiscovery),
       (clarificationProcessing a q ctx u).updatedContext.conversationState ≠
         ConversationState.specification) ∧
    (clarificationProcessing "$20 per gift" "Is that $20 per gift or total?"
        (mkContext 2 [sampleQA] ConversationState.confirmation)
        (mkUnderstanding (0.85 : ℚ) [])).updatedContext.conversationState =
      ConversationState.confirmation := by
  refine ⟨?_, ?_, ?_⟩
  · intro now ctx u ambs qs
    simp only [intentAnalysis]
    split <;> simp
  · intro a q ctx u
    simp only [clarificationProcessing]
    split <;> simp
  · norm_num [clarificationProcessing, mkUnderstanding, mkConfidence]

/-- C5: every successfully processed turn bumps `turnNumber` by exactly 1
over the supplied context, and yields 1 when no context is supplied. -/
theorem turnNumber_increments_by_one :
    (∀ (now : Nat) (c : ConversationContext) (u : ProductDiscovery)
       (ambs : List DetectedAmbiguity) (qs : List ClarificationQuestion),
       (intentAnalysis now (some c) u ambs qs).updatedContext.turnNumber =
         c.turnNumber + 1) ∧
    (∀ (now : Nat) (u : ProductDiscovery) (ambs : List DetectedAmbiguity)
       (qs : List ClarificationQuestion),
       (intentAnalysis now Option.none u ambs qs).updatedContext.turnNumber = 1) ∧
    (∀ (a q : String) (ctx : ConversationContext) (u : ProductDiscovery),
       (clarificationProcessing a q ctx u).updatedContext.turnNumber =
         ctx.turnNumber + 1) := by
  refine ⟨?_, ?_, ?_⟩
  · intro now c u ambs qs
    simp only [intentAnalysis, jsOrNat, Option.map_some']
    split <;> omega
  · intro now u ambs qs
    simp [intentAnalysis, jsOrNat]
  · intro a q ctx u
    simp [clarificationProcessing]

/-- C9: the clarification-answer flow always returns an empty
`nextQuestions` list (the follow-up generation branch is a stub), even on
inputs where it simultaneously reports `needsMoreClarification = true`. -/
theorem nextQuestions_always_empty :
    (∀ (a q : String) (ctx : ConversationContext) (u : ProductDiscovery),
       (clarificationProcessing a q ctx u).nextQuestions = []) ∧
    (clarificationProcessing "around fifty" "How many do you need?"
        (mkContext 1 [] ConversationState.clarification)
        (mkUnderstanding (0.5 : ℚ) [sampleUAmbiguity])).needsMoreClarification = true := by
  refine ⟨?_, ?_⟩
  · intro a q ctx u
    simp [clarificationProcessing]
  · norm_num [clarificationProcessing, mkUnderstanding, mkConfidence]

/-- C1 counterexample: a nonempty ambiguity list (one high-impact entry
with confidence 0, which is inside [0,1]) whose overall ambiguity score is
exactly 0, so score `= 0` does not imply the list is empty. -/
theorem overallScore_zero_on_nonempty_list :
    calculateOverallAmbiguityScore [zeroConfidenceAmbiguity] = 0 ∧
    ([zeroConfidenceAmbiguity] : List DetectedAmbiguity) ≠ [] ∧
    zeroConfidenceAmbiguity.confidence = 0 ∧
    0 ≤ zeroConfidenceAmbiguity.confidence ∧ zeroConfidenceAmbiguity.confidence ≤ 1 := by
  refine ⟨?_, by simp, by norm_num [zeroConfidenceAmbiguity, mkDetected],
    by norm_num [zeroConfidenceAmbiguity, mkDetected],
    by norm_num [zeroConfidenceAmbiguity, mkDetected]⟩
  norm_num [calculateOverallAmbiguityScore, zeroConfidenceAmbiguity, mkDetected, impactWeight]

/-- C1 (amended): for confidences in [0,1] the overall ambiguity score
equals `Σ impactWeight(a)·confidence(a) / (length · 3)`, lies in [0,1],
is 0 for the empty list, and is 0 exactly when every listed ambiguity has
confidence 0 (which the empty list satisfies vacuously). -/
theorem overallScore_formula_range_zero_iff (l : List DetectedAmbiguity)
    (h : ∀ a ∈ l, 0 ≤ a.confidence ∧ a.confidence ≤ 1) :
    calculateOverallAmbiguityScore l =
        (l.map fun a => impactWeight a.impact * a.confidence).sum / ((l.length : ℚ) * 3) ∧
    0 ≤ calculateOverallAmbiguityScore l ∧
    calculateOverallAmbiguityScore l ≤ 1 ∧
    (calculateOverallAmbiguityScore l = 0 ↔ ∀ a ∈ l, a.confidence = 0) := by
  have hform := calculateOverallAmbiguityScore_eq_sum l
  have hterm_nonneg : ∀ x ∈ l.map fun a => impactWeight a.impact * a.confidence, 0 ≤ x := by
    intro x hx
    rcases List.mem_map.mp hx with ⟨a, ha, rfl⟩
    exact mul_nonneg (impactWeight_pos a.impact).le (h a ha).1
  have hN0 : 0 ≤ (l.map fun a => impactWeight a.impact * a.confidence).sum :=
    List.sum_nonneg hterm_nonneg
  rcases List.eq_nil_or_concat l with rfl | hne
  · refine ⟨hform, ?_, ?_, ?_⟩ <;>
      simp [calculateOverallAmbiguityScore]
  · have hlen : 0 < l.length := by
      rcases hne with ⟨l', a, rfl⟩
      simp
    have hD : (0 : ℚ) < (l.length : ℚ) * 3 := by positivity
    have hterm_le : ∀ x ∈ l.map fun a => impactWeight a.impact * a.confidence, x ≤ 3 := by
      intro x hx
      rcases List.mem_map.mp hx with ⟨a, ha, rfl⟩
      calc impactWeight a.impact * a.confidence
          ≤ 3 * 1 := by
            exact mul_le_mul (impactWeight_le_three a.impact) (h a ha).2 (h a ha).1 (by norm_num)
        _ = 3 := by norm_num
    have hN3 : (l.map fun a => impactWeight a.impact * a.confidence).sum ≤ (l.length : ℚ) * 3 := by
      have := List.sum_le_card_nsmul (l.map fun a => impactWeight a.impact * a.confidence) 3 hterm_le
      simpa [nsmul_eq_mul, List.length_map, mul_comm] using this
    refine ⟨hform, ?_, ?_, ?_⟩
    · rw [hform]
      exact div_nonneg hN0 hD.le
    · rw [hform]
      exact (div_le_one hD).mpr hN3
    · rw [hform]
      rw [div_eq_zero_iff]
      constructor
      · rintro (hz | hz)
        · intro a ha
          have hall := (ratList_sum_eq_zero_iff _ hterm_nonneg).mp hz
          have := hall (impactWeight a.impact * a.confidence) (List.mem_map.mpr ⟨a, ha, rfl⟩)
          rcases mul_eq_zero.mp this with hiw | hc
          · exact absurd hiw (impactWeight_pos a.impact).ne'
          · exact hc
        · exact absurd hz hD.ne'
      · intro hall
        left
        apply (ratList_sum_eq_zero_iff _ hterm_nonneg).mpr
        intro x hx
        rcases List.mem_map.mp hx with ⟨a, ha, rfl⟩
        rw [hall a ha, mul_zero]

/-- C1 witness: the amended statement evaluated on the spec's two-element
scenario list. -/
theorem overallScore_formula_range_zero_iff_witness :
    (∀ a ∈ scenarioAmbiguities, 0 ≤ a.confidence ∧ a.confidence ≤ 1) ∧
    (0 ≤ calculateOverallAmbiguityScore scenarioAmbiguities ∧
     calculateOverallAmbiguityScore scenarioAmbiguities ≤ 1 ∧
     (calculateOverallAmbiguityScore scenarioAmbiguities = 0 ↔
       ∀ a ∈ scenarioAmbiguities, a.confidence = 0)) := by
  have h : ∀ a ∈ scenarioAmbiguities, 0 ≤ a.confidence ∧ a.confidence ≤ 1 := by
    intro a ha
    simp only [scenarioAmbiguities, List.mem_cons, List.not_mem_nil, or_false] at ha
    rcases ha with rfl | rfl <;> norm_num [mkDetected]
  exact ⟨h, (overallScore_formula_range_zero_iff scenarioAmbiguities h).2⟩

/-- C6 counterexample: a per-turn call carries the previous clarification
history through unchanged, so its length does not grow by one as the claim
("with the most recent question/answer pair appended") requires. -/
theorem history_not_appended_on_intent_path :
    (intentAnalysis 0 (some oneEntryContext) (mkUnderstanding (0.9 : ℚ) []) []
        []).updatedContext.clarificationHistory = oneEntryContext.clarificationHistory ∧
    (intentAnalysis 0 (some oneEntryContext) (mkUnderstanding (0.9 : ℚ) []) []
        []).updatedContext.clarificationHistory.length ≠
      oneEntryContext.clarificationHistory.length + 1 := by
  constructor
  · simp [intentAnalysis]
  · simp [intentAnalysis, oneEntryContext, mkContext]

/-- C6 (amended): the clarification-answer path appends exactly the
processed question/answer pair (with no resolved-ambiguity tag) to the
previous history, never truncating, modifying or reordering existing
entries; the per-turn path carries the previous history through unchanged
(empty on the first turn). -/
theorem history_append_only :
    (∀ (a q : String) (ctx : ConversationContext) (u : ProductDiscovery),
       (clarificationProcessing a q ctx u).updatedContext.clarificationHistory =
         ctx.clarificationHistory ++
           [{ question := q, answer := a, resolvedAmbiguity := Option.none }]) ∧
    (∀ (now : Nat) (c : ConversationContext) (u : ProductDiscovery)
       (ambs : List DetectedAmbiguity) (qs : List ClarificationQuestion),
       (intentAnalysis now (some c) u ambs qs).updatedContext.clarificationHistory =
         c.clarificationHistory) ∧
    (∀ (now : Nat) (u : ProductDiscovery) (ambs : List DetectedAmbiguity)
       (qs : List ClarificationQuestion),
       (intentAnalysis now Option.none u ambs qs).updatedContext.clarificationHistory = []) := by
  refine ⟨?_, ?_, ?_⟩
  · intro a q ctx u
    simp [clarificationProcessing]
  · intro now c u ambs qs
    simp [intentAnalysis]
  · intro now u ambs qs
    simp [intentAnalysis]

/-- C10 counterexample: a fresh turn whose understanding has no
ambiguities and overall confidence 0.75 (inside [0.7, 0.8)) can still need
clarification, because the per-turn check also fires on the separately
detected ambiguity list's score (here a single certain high-impact
ambiguity gives score 1 > 0.3). -/
theorem fresh_turn_clarification_despite_mid_confidence :
    midConfidenceUnderstanding.ambiguities = [] ∧
    (0.7 : ℚ) ≤ midConfidenceUnderstanding.confidence.overall ∧
    midConfidenceUnderstanding.confidence.overall < (0.8 : ℚ) ∧
    (intentAnalysis 0 Option.none midConfidenceUnderstanding [certainHighAmbiguity]
        []).needsClarification = true := by
  refine ⟨by simp [midConfidenceUnderstanding, mkUnderstanding], ?_, ?_, ?_⟩
  · norm_num [midConfidenceUnderstanding, mkUnderstanding, mkConfidence]
  · norm_num [midConfidenceUnderstanding, mkUnderstanding, mkConfidence]
  · norm_num [intentAnalysis, ambiguityDetection, calculateOverallAmbiguityScore,
      certainHighAmbiguity, mkDetected, impactWeight]

/-- C10 (amended): `needsMoreClarification` is true iff the updated
understanding has at least one ambiguity or overall confidence < 0.8;
the per-turn `needsClarification` is true iff the detected-ambiguity score
exceeds 0.3 or overall confidence < 0.7; hence an understanding with no
ambiguities and confidence in [0.7, 0.8) needs no clarification on a fresh
turn whose ambiguity detection is empty, but does after an answer. -/
theorem clarification_thresholds :
    (∀ (a q : String) (ctx : ConversationContext) (u : ProductDiscovery),
       ((clarificationProcessing a q ctx u).needsMoreClarification = true ↔
         (u.ambiguities ≠ [] ∨ u.confidence.overall < (0.8 : ℚ)))) ∧
    (∀ (now : Nat) (ctx : Option ConversationContext) (u : ProductDiscovery)
       (ambs : List DetectedAmbiguity) (qs : List ClarificationQuestion),
       ((intentAnalysis now ctx u ambs qs).needsClarification = true ↔
         ((0.3 : ℚ) < calculateOverallAmbiguityScore ambs ∨
           u.confidence.overall < (0.7 : ℚ)))) ∧
    (∀ (now : Nat) (ctx : Option ConversationContext) (u : ProductDiscovery)
       (qs : List ClarificationQuestion) (a q : String) (ctx2 : ConversationContext),
       u.ambiguities = [] → (0.7 : ℚ) ≤ u.confidence.overall →
       u.confidence.overall < (0.8 : ℚ) →
       (intentAnalysis now ctx u [] qs).needsClarification = false ∧
       (clarificationProcessing a q ctx2 u).needsMoreClarification = true) := by
  refine ⟨?_, ?_, ?_⟩
  · intro a q ctx u
    simp only [clarificationProcessing, Bool.or_eq_true, decide_eq_true_eq]
    constructor
    · rintro (hlen | hconf)
      · exact Or.inl (by simpa [List.length_pos] using hlen)
      · exact Or.inr hconf
    · rintro (hne | hconf)
      · exact Or.inl (by simpa [List.length_pos] using hne)
      · exact Or.inr hconf
  · intro now ctx u ambs qs
    simp [intentAnalysis, ambiguityDetection]
  · intro now ctx u qs a q ctx2 hnil h7 h8
    constructor
    · simp only [intentAnalysis, ambiguityDetection, Bool.or_eq_false_iff,
        decide_eq_false_iff_not, not_lt]
      constructor
      · norm_num [calculateOverallAmbiguityScore]
      · exact h7
    · simp only [clarificationProcessing, Bool.or_eq_true, decide_eq_true_eq]
      exact Or.inr h8

/-- C10 witness: the amended statement instantiated at an understanding
with no ambiguities and confidence 0.75. -/
theorem clarification_thresholds_witness :
    (intentAnalysis 0 Option.none midConfidenceUnderstanding []
        []).needsClarification = false ∧
    (clarificationProcessing "blue" "Which color?"
        (mkContext 1 [] ConversationState.clarification)
        midConfidenceUnderstanding).needsMoreClarification = true :=
  clarification_thresholds.2.2 0 Option.none midConfidenceUnderstanding []
    "blue" "Which color?" (mkContext 1 [] ConversationState.clarification)
    (by simp [midConfidenceUnderstanding, mkUnderstanding])
    (by norm_num [midConfidenceUnderstanding, mkUnderstanding, mkConfidence])
    (by norm_num [midConfidenceUnderstanding, mkUnderstanding, mkConfidence])

/-- C7: an ambiguity whose impact or resolution urgency lies outside its
closed enum fails the declared output-schema validation, so the analysis
signals an explicit validation error and produces no numeric result for
the list. -/
theorem out_of_enum_ambiguity_rejected (rs : List RawAmbiguity) (r : RawAmbiguity)
    (hmem : r ∈ rs)
    (hbad : parseImpact r.impact = Option.none ∨ parseUrgency r.resolutionUrgency = Option.none) :
    ambiguityDetectionChecked rs = Option.none := by
  have hfail : parseDetectedAmbiguity r = Option.none := by
    unfold parseDetectedAmbiguity
    rcases hbad with hb | hb <;> rw [hb] <;>
      rcases parseAmbiguityType r.type with _ | t <;>
      rcases parseImpact r.impact with _ | i <;>
      rcases parseUrgency r.resolutionUrgency with _ | u <;>
      simp_all
  have hlist : parseAmbiguityList rs = Option.none := by
    induction rs with
    | nil => simp at hmem
    | cons hd tl ih =>
      rcases List.mem_cons.mp hmem with rfl | htl
      · unfold parseAmbiguityList
        rw [hfail]
      · unfold parseAmbiguityList
        rw [ih htl]
        rcases parseDetectedAmbiguity hd with _ | a <;> simp
  unfold ambiguityDetectionChecked
  rw [hlist]
  rfl

/-- C7 witness: a concrete model output containing an impact value
`"severe"` outside the closed enum is rejected whole. -/
theorem out_of_enum_ambiguity_rejected_witness :
    badImpactRaw ∈ mixedRawAmbiguities ∧
    ambiguityDetectionChecked mixedRawAmbiguities = Option.none :=
  ⟨by simp [mixedRawAmbiguities],
   out_of_enum_ambiguity_rejected mixedRawAmbiguities badImpactRaw
     (by simp [mixedRawAmbiguities])
     (Or.inl (by simp [badImpactRaw, parseImpact]))⟩

/-- C8 counterexample: with a question budget of 3, the clarification
generation flow passes the budget only into the prompt text and returns
the model's schema-valid list unchanged, so a four-question model output
yields four questions — more than `maxQuestions`. -/
theorem question_budget_not_enforced :
    clarificationGeneration 3 fourRawQuestions = some fourParsedQuestions ∧
    fourParsedQuestions.length = 4 ∧ ¬(fourParsedQuestions.length ≤ 3) := by
  refine ⟨?_, by simp [fourParsedQuestions], by simp [fourParsedQuestions]⟩
  simp [clarificationGeneration, parseQuestionList, parseClarificationQuestion,
    parseQuestionType, parsePriorityLabel, fourRawQuestions, fourParsedQuestions,
    mkRawQuestion, mkParsedQuestion]

/-- C8 (amended): the selector returns the external model's question list
after schema validation only — elementwise in the model's order and with
the model's length (which may exceed `maxQuestions`); no length bound,
reordering, or non-empty-reasoning check is applied by the code. -/
theorem clarificationGeneration_is_validated_passthrough (maxQ : Nat)
    (rs : List RawClarificationQuestion) (qs : List ClarificationQuestion)
    (h : clarificationGeneration maxQ rs = some qs) :
    List.Forall₂ (fun r q => parseClarificationQuestion r = some q) rs qs ∧
    qs.length = rs.length := by
  have hmain : List.Forall₂ (fun r q => parseClarificationQuestion r = some q) rs qs := by
    unfold clarificationGeneration at h
    induction rs generalizing qs with
    | nil =>
      unfold parseQuestionList at h
      cases h
      exact List.Forall₂.nil
    | cons r rs ih =>
      unfold parseQuestionList at h
      rcases hq : parseClarificationQuestion r with _ | q
      · rw [hq] at h
        exact absurd h (by simp)
      · rw [hq] at h
        rcases hrest : parseQuestionList rs with _ | rest
        · rw [hrest] at h
          exact absurd h (by simp)
        · rw [hrest] at h
          simp only [Option.some.injEq] at h
          subst h
          exact List.Forall₂.cons hq (ih rest hrest)
  exact ⟨hmain, hmain.length_eq.symm⟩

/-- C8 witness: the amended statement evaluated on the four-question model
output with budget 3. -/
theorem clarificationGeneration_is_validated_passthrough_witness :
    List.Forall₂ (fun r q => parseClarificationQuestion r = some q)
        fourRawQuestions fourParsedQuestions ∧
    fourParsedQuestions.length = fourRawQuestions.length :=
  clarificationGeneration_is_validated_passthrough 3 fourRawQuestions fourParsedQuestions
    (by simp [clarificationGeneration, parseQuestionList, parseClarificationQuestion,
      parseQuestionType, parsePriorityLabel, fourRawQuestions, fourParsedQuestions,
      mkRawQuestion, mkParsedQuestion])

theorem calculatePriority_bounds (a : DetectedAmbiguity) (h0 : 0 ≤ a.confidence)
    (h1 : a.confidence ≤ 1) : 0 ≤ calculatePriority a ∧ calculatePriority a ≤ 90 := by
  obtain ⟨t, d, pi, conf, i, ev, u⟩ := a
  simp only at h0 h1
  cases i <;> cases u <;>
    simp only [calculatePriority, impactWeight, urgencyWeight] <;>
    constructor <;> nlinarith

/-- C2: every ranked entry's priority equals
`impactWeight · urgencyWeight · confidence · 10` for a listed ambiguity and
lies in [0, 90]; the `clarificationPriority` list is a permutation of the
mapped entries, descending in priority, and for every priority value the
tied entries appear in exactly the extractor's original emission order. -/
theorem clarificationPriority_ranking (l : List DetectedAmbiguity)
    (h : ∀ a ∈ l, 0 ≤ a.confidence ∧ a.confidence ≤ 1) :
    (∀ e ∈ clarificationPriorityList l, 0 ≤ e.priority ∧ e.priority ≤ 90) ∧
    (∀ e ∈ clarificationPriorityList l, ∃ a ∈ l, e = priorityEntry a ∧
       e.priority =
         impactWeight a.impact * urgencyWeight a.resolutionUrgency * a.confidence * 10) ∧
    List.Pairwise (fun x y => y.priority ≤ x.priority) (clarificationPriorityList l) ∧
    (clarificationPriorityList l).Perm (l.map priorityEntry) ∧
    (∀ p : ℚ, (clarificationPriorityList l).filter (fun e => decide (e.priority = p)) =
       (l.map priorityEntry).filter (fun e => decide (e.priority = p))) := by
  have trans : ∀ (a b c : PriorityEntry),
      (fun x y : PriorityEntry => decide (y.priority ≤ x.priority)) a b →
      (fun x y : PriorityEntry => decide (y.priority ≤ x.priority)) b c →
      (fun x y : PriorityEntry => decide (y.priority ≤ x.priority)) a c := by
    intro a b c hab hbc
    simp only [decide_eq_true_eq] at hab hbc ⊢
    exact le_trans hbc hab
  have total : ∀ (a b : PriorityEntry),
      ((fun x y : PriorityEntry => decide (y.priority ≤ x.priority)) a b ||
       (fun x y : PriorityEntry => decide (y.priority ≤ x.priority)) b a) := by
    intro a b
    simp only [Bool.or_eq_true, decide_eq_true_eq]
    exact le_total b.priority a.priority
  have hmem : ∀ e ∈ clarificationPriorityList l, ∃ a ∈ l, e = priorityEntry a ∧
      e.priority =
        impactWeight a.impact * urgencyWeight a.resolutionUrgency * a.confidence * 10 := by
    intro e he
    have he' : e ∈ l.map priorityEntry := List.mem_mergeSort.mp he
    rcases List.mem_map.mp he' with ⟨a, ha, rfl⟩
    exact ⟨a, ha, rfl, rfl⟩
  refine ⟨?_, hmem, ?_, ?_, ?_⟩
  · intro e he
    rcases hmem e he with ⟨a, ha, rfl, -⟩
    exact calculatePriority_bounds a (h a ha).1 (h a ha).2
  · have hp := List.sorted_mergeSort trans total (l.map priorityEntry)
    exact hp.imp (fun hxy => by simpa using hxy)
  · exact List.mergeSort_perm (l.map priorityEntry) _
  · intro p
    have hc_sub : List.Sublist
        ((l.map priorityEntry).filter (fun e => decide (e.priority = p)))
        (l.map priorityEntry) := List.filter_sublist _
    have hc_all : ∀ x ∈ (l.map priorityEntry).filter (fun e => decide (e.priority = p)),
        x.priority = p := by
      intro x hx
      simpa using List.of_mem_filter hx
    have hc_pw : ((l.map priorityEntry).filter (fun e => decide (e.priority = p))).Pairwise
        (fun x y : PriorityEntry => decide (y.priority ≤ x.priority)) := by
      apply List.pairwise_of_forall_mem_list
      intro a ha b hb
      simp only [decide_eq_true_eq, hc_all a ha, hc_all b hb]
      exact le_refl p
    have hsub2 : List.Sublist
        ((l.map priorityEntry).filter (fun e => decide (e.priority = p)))
        ((l.map priorityEntry).mergeSort (fun x y => decide (y.priority ≤ x.priority))) :=
      List.sublist_mergeSort trans total hc_pw hc_sub
    have hself : ((l.map priorityEntry).filter (fun e => decide (e.priority = p))).filter
        (fun e => decide (e.priority = p)) =
        (l.map priorityEntry).filter (fun e => decide (e.priority = p)) :=
      List.filter_eq_self.mpr (fun x hx => by simp [hc_all x hx])
    have hsub3 : List.Sublist
        ((l.map priorityEntry).filter (fun e => decide (e.priority = p)))
        (((l.map priorityEntry).mergeSort
          (fun x y => decide (y.priority ≤ x.priority))).filter
          (fun e => decide (e.priority = p))) := by
      have := hsub2.filter (fun e => decide (e.priority = p))
      rwa [hself] at this
    have hperm : (((l.map priorityEntry).mergeSort
        (fun x y => decide (y.priority ≤ x.priority))).filter
          (fun e => decide (e.priority = p))).Perm
        ((l.map priorityEntry).filter (fun e => decide (e.priority = p))) :=
      (List.mergeSort_perm (l.map priorityEntry) _).filter _
    exact (hsub3.eq_of_length hperm.length_eq.symm).symm

/-- C2 witness: the ranking statement evaluated on the spec's two-element
scenario list. -/
theorem clarificationPriority_ranking_witness :
    (∀ a ∈ scenarioAmbiguities, 0 ≤ a.confidence ∧ a.confidence ≤ 1) ∧
    ((∀ e ∈ clarificationPriorityList scenarioAmbiguities, 0 ≤ e.priority ∧ e.priority ≤ 90) ∧
     List.Pairwise (fun x y => y.priority ≤ x.priority)
       (clarificationPriorityList scenarioAmbiguities) ∧
     (clarificationPriorityList scenarioAmbiguities).Perm
       (scenarioAmbiguities.map priorityEntry)) := by
  have h : ∀ a ∈ scenarioAmbiguities, 0 ≤ a.confidence ∧ a.confidence ≤ 1 := by
    intro a ha
    simp only [scenarioAmbiguities, List.mem_cons, List.not_mem_nil, or_false] at ha
    rcases ha with rfl | rfl <;> norm_num [mkDetected]
  have hr := clarificationPriority_ranking scenarioAmbiguities h
  exact ⟨h, hr.1, hr.2.2.1, hr.2.2.2.1⟩

end Atlas
